import Mathlib

/-!
# esphomelib: INA3221 driver and CronTrigger

A shallow embedding of

* `src/esphomelib/sensor/ina3221.cpp`: `INA3221Component::setup`,
  `INA3221Component::update` and the three `INA3221Channel` predicates;
* `src/esphomelib/time/rtc_component.h`: `EsphomelibTime` and the data members
  of `CronTrigger`.  The bodies of `CronTrigger::matches`, `CronTrigger::loop` and
  `EsphomelibTime::is_valid` are not in these sources; they are modelled from the
  specification and marked so.

The I2C bus, the sensors' `push_new_value`, `delay` and the `Component` status
calls are collaborators of the driver.  Every call the driver makes to one of
them is recorded, in program order, in the component's `log`; the bus answers
are given by an arbitrary `I2CBus`.  Floating point arithmetic is kept abstract:
the driver is parametric in a type `F` of floats with the operations it uses.
-/

namespace Esphomelib

/-! ## Floating point, bus and log -/

/-- The `float` operations `INA3221Component::update` uses. -/
structure FloatOps (F : Type) where
  /-- The constant `NAN`. -/
  nan : F
  /-- Conversion of an integer to `float` (also used for literals such as `1000.0f`). -/
  ofInt : Int → F
  /-- Operator `*` on floats. -/
  mul : F → F → F
  /-- Operator `/` on floats. -/
  div : F → F → F

/-- The four sensors a channel may own. -/
inductive SensorKind
  | bus_voltage
  | shunt_voltage
  | current
  | power
  deriving DecidableEq, Repr

/-- One call made by the driver to a collaborator. -/
inductive Event (F : Type)
  /-- The call `write_byte_16(reg, value)` and its result. -/
  | write_byte_16 (reg value : Nat) (ok : Bool)
  /-- The call `read_byte_16(reg, &raw, 1)`: `none` when it returned false, else the word read. -/
  | read_byte_16 (reg : Nat) (result : Option Nat)
  /-- The call `delay(ms)`. -/
  | delay (ms : Nat)
  /-- The call `push_new_value(value)` on a sensor of a channel. -/
  | push_new_value (channel : Fin 3) (sensor : SensorKind) (value : F)
  /-- The call `mark_failed()`. -/
  | mark_failed
  /-- The call `status_set_warning()`. -/
  | status_set_warning
  deriving DecidableEq, Repr

/-- The I2C device behind the driver.  The first argument of both functions is the
number of bus transactions the component has issued before this one, so a bus may
answer the same request differently each time. -/
structure I2CBus where
  /-- Result of `write_byte_16(reg, value)`. -/
  write_byte_16 : Nat → Nat → Nat → Bool
  /-- Result of `read_byte_16(reg, &raw, 1)`: `none` for false, else the value stored in `raw`. -/
  read_byte_16 : Nat → Nat → Option Nat

/-! ## INA3221 -/

def INA3221_REGISTER_CONFIG : Nat := 0x00

/-- The struct `INA3221Component::INA3221Channel`; a sensor pointer is `true` when it is
not `nullptr`. -/
structure INA3221Channel (F : Type) where
  bus_voltage_sensor_ : Bool
  shunt_voltage_sensor_ : Bool
  current_sensor_ : Bool
  power_sensor_ : Bool
  shunt_resistance_ : F

namespace INA3221Channel

variable {F : Type}

/-- `INA3221Channel::exists` (ina3221.cpp:134). -/
def «exists» (ch : INA3221Channel F) : Bool :=
  ch.bus_voltage_sensor_ || ch.shunt_voltage_sensor_ || ch.current_sensor_ || ch.power_sensor_

/-- `INA3221Channel::should_measure_shunt_voltage` (ina3221.cpp:137). -/
def should_measure_shunt_voltage (ch : INA3221Channel F) : Bool :=
  ch.shunt_voltage_sensor_ || ch.current_sensor_ || ch.power_sensor_

/-- `INA3221Channel::should_measure_bus_voltage` (ina3221.cpp:140). -/
def should_measure_bus_voltage (ch : INA3221Channel F) : Bool :=
  ch.bus_voltage_sensor_ || ch.power_sensor_

end INA3221Channel

/-- The state of an `INA3221Component`: its three channels, the two status flags of
`Component`, the number of bus transactions issued so far and the log of calls made. -/
structure INA3221Component (F : Type) where
  channels : Fin 3 → INA3221Channel F
  failed : Bool
  warning : Bool
  transactions : Nat
  log : List (Event F)

namespace INA3221Component

variable {F : Type}

/-- Modelled from the spec: `Component::mark_failed` (component.h is not part of the
sources): sets the sticky `failed` flag. -/
def mark_failed (c : INA3221Component F) : INA3221Component F :=
  { c with failed := true, log := c.log ++ [Event.mark_failed] }

/-- Modelled from the spec: `Component::status_set_warning` (component.h is not part of
the sources): sets the advisory `warning` flag. -/
def status_set_warning (c : INA3221Component F) : INA3221Component F :=
  { c with warning := true, log := c.log ++ [Event.status_set_warning] }

/-- The call `delay(ms)`. -/
def delay (c : INA3221Component F) (ms : Nat) : INA3221Component F :=
  { c with log := c.log ++ [Event.delay ms] }

/-- The call `sensor->push_new_value(value)` on a sensor of channel `i`. -/
def push_new_value (c : INA3221Component F) (i : Fin 3) (s : SensorKind) (value : F) :
    INA3221Component F :=
  { c with log := c.log ++ [Event.push_new_value i s value] }

/-- The call `this->write_byte_16(reg, value)`: one bus transaction. -/
def write_byte_16 (bus : I2CBus) (c : INA3221Component F) (reg value : Nat) :
    INA3221Component F × Bool :=
  let ok := bus.write_byte_16 c.transactions reg value
  ({ c with transactions := c.transactions + 1,
            log := c.log ++ [Event.write_byte_16 reg value ok] }, ok)

/-- The call `this->read_byte_16(reg, &raw, 1)`: one bus transaction; the word read is
a `uint16_t`. -/
def read_byte_16 (bus : I2CBus) (c : INA3221Component F) (reg : Nat) :
    INA3221Component F × Option Nat :=
  let r := (bus.read_byte_16 c.transactions reg).map (· % 65536)
  ({ c with transactions := c.transactions + 1,
            log := c.log ++ [Event.read_byte_16 reg r] }, r)

/-- The `uint16_t config` word built in `setup` (ina3221.cpp:47-65). -/
def setup_config (c : INA3221Component F) : Nat :=
  let config : Nat := 0
  let config := if (c.channels 0).exists then config ||| 0b0100000000000000 else config
  let config := if (c.channels 1).exists then config ||| 0b0010000000000000 else config
  let config := if (c.channels 2).exists then config ||| 0b0001000000000000 else config
  let config := config ||| 0b0000111000000000
  let config := config ||| 0b0000000111000000
  let config := config ||| 0b0000000000111000
  let config := config ||| 0b0000000000000111
  config % 65536

/-- `INA3221Component::setup` (ina3221.cpp:36-71). -/
def setup (bus : I2CBus) (c : INA3221Component F) : INA3221Component F :=
  match write_byte_16 bus c INA3221_REGISTER_CONFIG 0x8000 with
  | (c1, false) => c1.mark_failed
  | (c1, true) =>
    let c2 := c1.delay 1
    match write_byte_16 bus c2 INA3221_REGISTER_CONFIG (setup_config c2) with
    | (c3, false) => c3.mark_failed
    | (c3, true) => c3

end INA3221Component

/-- `ina3221_bus_voltage_register` (ina3221.cpp:73); the result is a `uint8_t`. -/
def ina3221_bus_voltage_register (channel : Nat) : Nat := (0x02 + channel * 2) % 256

/-- `ina3221_shunt_voltage_register` (ina3221.cpp:77); the result is a `uint8_t`. -/
def ina3221_shunt_voltage_register (channel : Nat) : Nat := (0x01 + channel * 2) % 256

/-- The conversion `int16_t(raw)` of a `uint16_t`. -/
def int16_t (raw : Nat) : Int :=
  if raw % 65536 < 32768 then (raw % 65536 : Nat) else ((raw % 65536 : Nat) : Int) - 65536

namespace INA3221Component

variable {F : Type}

/-- The expression `int16_t(raw) / 1000.0f` (ina3221.cpp:91). -/
def bus_voltage_v (ops : FloatOps F) (raw : Nat) : F :=
  ops.div (ops.ofInt (int16_t raw)) (ops.ofInt 1000)

/-- The expression `int16_t(raw) * 40.0f / 1000000.0f` (ina3221.cpp:100). -/
def shunt_voltage_v (ops : FloatOps F) (raw : Nat) : F :=
  ops.div (ops.mul (ops.ofInt (int16_t raw)) (ops.ofInt 40)) (ops.ofInt 1000000)

/-- The body of the loop of `INA3221Component::update` for channel `i`
(ina3221.cpp:83-109).  The Boolean is `false` when the body executed `return`. -/
def update_channel (ops : FloatOps F) (bus : I2CBus) (i : Fin 3) (c : INA3221Component F) :
    INA3221Component F × Bool :=
  let channel := c.channels i
  -- float bus_voltage_v = NAN, current_a = NAN;
  let measured_bus : INA3221Component F × Option F :=
    if channel.should_measure_bus_voltage then
      match read_byte_16 bus c (ina3221_bus_voltage_register i) with
      | (c1, none) => (c1.status_set_warning, none)
      | (c1, some raw) =>
        let v := bus_voltage_v ops raw
        (if channel.bus_voltage_sensor_ then c1.push_new_value i .bus_voltage v else c1, some v)
    else (c, some ops.nan)
  match measured_bus with
  | (c2, none) => (c2, false)
  | (c2, some bus_v) =>
    let measured_shunt : INA3221Component F × Option F :=
      if channel.should_measure_shunt_voltage then
        match read_byte_16 bus c2 (ina3221_shunt_voltage_register i) with
        | (c3, none) => (c3.status_set_warning, none)
        | (c3, some raw) =>
          let sv := shunt_voltage_v ops raw
          let c4 := if channel.shunt_voltage_sensor_ then c3.push_new_value i .shunt_voltage sv
                    else c3
          let current_a := ops.div sv channel.shunt_resistance_
          (if channel.current_sensor_ then c4.push_new_value i .current current_a else c4,
            some current_a)
      else (c2, some ops.nan)
    match measured_shunt with
    | (c5, none) => (c5, false)
    | (c5, some current_a) =>
      (if channel.power_sensor_ then c5.push_new_value i .power (ops.mul bus_v current_a)
       else c5, true)

/-- The loop `for (int i = 0; i < 3; i++)` of `update` over the channels still to visit;
a `return` in the body ends it. -/
def update_channels (ops : FloatOps F) (bus : I2CBus) :
    List (Fin 3) → INA3221Component F → INA3221Component F
  | [], c => c
  | i :: rest, c =>
    match update_channel ops bus i c with
    | (c1, true) => update_channels ops bus rest c1
    | (c1, false) => c1

/-- `INA3221Component::update` (ina3221.cpp:81-111). -/
def update (ops : FloatOps F) (bus : I2CBus) (c : INA3221Component F) : INA3221Component F :=
  update_channels ops bus [0, 1, 2] c

/-- The component after `n` consecutive calls of `update`. -/
def updates (ops : FloatOps F) (bus : I2CBus) : Nat → INA3221Component F → INA3221Component F
  | 0, c => c
  | n + 1, c => updates ops bus n (update ops bus c)

/-- The calls a member function made: the part of the log of `after` that was not yet in
the log of `before`. -/
def new_events (before after : INA3221Component F) : List (Event F) :=
  after.log.drop before.log.length

/-- The calls made by one execution of `setup`. -/
def setup_log (bus : I2CBus) (c : INA3221Component F) : List (Event F) :=
  new_events c (setup bus c)

/-- The calls made by one execution of `update`. -/
def update_log (ops : FloatOps F) (bus : I2CBus) (c : INA3221Component F) : List (Event F) :=
  new_events c (update ops bus c)

/-- The calls of the loop body of `update` for a channel `ch` with index `i`, as a function
of the results `rb` and `rs` of the bus-voltage and the shunt-voltage register read (a
result is ignored when the body does not issue that read), and whether the body ran to
its end.  `update_channel_eq` proves that `update_channel` makes exactly these calls. -/
def channel_calls (ops : FloatOps F) (ch : INA3221Channel F) (i : Fin 3)
    (rb rs : Option Nat) : List (Event F) × Bool :=
  let bus_calls : List (Event F) :=
    if ch.should_measure_bus_voltage then
      Event.read_byte_16 (ina3221_bus_voltage_register i) rb ::
        (match rb with
          | none => [Event.status_set_warning]
          | some raw =>
            if ch.bus_voltage_sensor_ then
              [Event.push_new_value i SensorKind.bus_voltage (bus_voltage_v ops raw)]
            else [])
    else []
  let shunt_calls : List (Event F) :=
    if ch.should_measure_shunt_voltage then
      Event.read_byte_16 (ina3221_shunt_voltage_register i) rs ::
        (match rs with
          | none => [Event.status_set_warning]
          | some raw =>
            (if ch.shunt_voltage_sensor_ then
              [Event.push_new_value i SensorKind.shunt_voltage (shunt_voltage_v ops raw)]
             else []) ++
            (if ch.current_sensor_ then
              [Event.push_new_value i SensorKind.current
                (ops.div (shunt_voltage_v ops raw) ch.shunt_resistance_)]
             else []))
    else []
  let bus_v : F := if ch.should_measure_bus_voltage then bus_voltage_v ops (rb.getD 0) else ops.nan
  let current_a : F :=
    if ch.should_measure_shunt_voltage then
      ops.div (shunt_voltage_v ops (rs.getD 0)) ch.shunt_resistance_
    else ops.nan
  if ch.should_measure_bus_voltage && rb.isNone then (bus_calls, false)
  else if ch.should_measure_shunt_voltage && rs.isNone then (bus_calls ++ shunt_calls, false)
  else
    (bus_calls ++ shunt_calls ++
      (if ch.power_sensor_ then
        [Event.push_new_value i SensorKind.power (ops.mul bus_v current_a)] else []), true)

/-- The call is a failed register read or `status_set_warning`. -/
def Bad : Event F → Prop
  | Event.read_byte_16 _ none => True
  | Event.status_set_warning => True
  | _ => False

/-- No call in the list is a failed register read or `status_set_warning`. -/
def Clean : List (Event F) → Prop
  | [] => True
  | Event.read_byte_16 _ none :: _ => False
  | Event.status_set_warning :: _ => False
  | _ :: rest => Clean rest

/-- The list is some calls without failed read or warning, then one failed register read,
then `status_set_warning`, and nothing more. -/
def EndsInFailure : List (Event F) → Prop
  | [] => False
  | Event.read_byte_16 _ none :: rest => rest = [Event.status_set_warning]
  | Event.status_set_warning :: _ => False
  | _ :: rest => EndsInFailure rest

/-- What must have been read, in the calls `pre` made before it, for a call to be a push
of a value derived from this call's register reads. -/
def Justified (ops : FloatOps F) (chs : Fin 3 → INA3221Channel F) (pre : List (Event F)) :
    Event F → Prop
  | Event.push_new_value i SensorKind.bus_voltage v =>
    ∃ rb, Event.read_byte_16 (ina3221_bus_voltage_register i) (some rb) ∈ pre ∧
      v = bus_voltage_v ops rb
  | Event.push_new_value i SensorKind.shunt_voltage v =>
    ∃ rs, Event.read_byte_16 (ina3221_shunt_voltage_register i) (some rs) ∈ pre ∧
      v = shunt_voltage_v ops rs
  | Event.push_new_value i SensorKind.current v =>
    ∃ rs, Event.read_byte_16 (ina3221_shunt_voltage_register i) (some rs) ∈ pre ∧
      v = ops.div (shunt_voltage_v ops rs) (chs i).shunt_resistance_
  | Event.push_new_value i SensorKind.power v =>
    ∃ rb rs, Event.read_byte_16 (ina3221_bus_voltage_register i) (some rb) ∈ pre ∧
      Event.read_byte_16 (ina3221_shunt_voltage_register i) (some rs) ∈ pre ∧
      v = ops.mul (bus_voltage_v ops rb)
            (ops.div (shunt_voltage_v ops rs) (chs i).shunt_resistance_)
  | _ => True

/-- Every call of the list is `Justified` by the calls `pre` and the calls before it in
the list. -/
def JustifiedFrom (ops : FloatOps F) (chs : Fin 3 → INA3221Channel F) :
    List (Event F) → List (Event F) → Prop
  | _, [] => True
  | pre, e :: rest => Justified ops chs pre e ∧ JustifiedFrom ops chs (pre ++ [e]) rest

/-- The call belongs to channel `i`: a read of one of its two registers, a push to one of
its sensors, or `status_set_warning`. -/
def Own (i : Fin 3) : Event F → Prop
  | Event.read_byte_16 reg _ =>
    reg = ina3221_bus_voltage_register i ∨ reg = ina3221_shunt_voltage_register i
  | Event.push_new_value j _ _ => j = i
  | Event.status_set_warning => True
  | _ => False

/-- The call is a read of one of the two registers of channel `i`. -/
def ReadsChannel (i : Fin 3) : Event F → Prop
  | Event.read_byte_16 reg _ =>
    reg = ina3221_bus_voltage_register i ∨ reg = ina3221_shunt_voltage_register i
  | _ => False

/-- The call is a push to one of the sensors of channel `i`. -/
def PushesChannel (i : Fin 3) : Event F → Prop
  | Event.push_new_value j _ _ => j = i
  | _ => False

end INA3221Component

/-! ## Time and CronTrigger -/

/-- The struct `EsphomelibTime` (rtc_component.h:27-49). -/
structure EsphomelibTime where
  /-- seconds after the minute [0-60] -/
  second : Nat
  /-- minutes after the hour [0-59] -/
  minute : Nat
  /-- hours since midnight [0-23] -/
  hour : Nat
  /-- day of the week; sunday=1 [1-7] -/
  day_of_week : Nat
  /-- day of the month [1-31] -/
  day_of_month : Nat
  /-- day of the year [1-366] -/
  day_of_year : Nat
  /-- month; january=1 [1-12] -/
  month : Nat
  /-- year -/
  year : Nat
  /-- daylight savings time flag -/
  is_dst : Bool
  /-- unix epoch time (seconds since UTC Midnight January 1, 1970) -/
  time : Int
  deriving DecidableEq, Repr

namespace EsphomelibTime

/-- The ranges the comments of the struct document for the six fields a `CronTrigger`
looks at (rtc_component.h:28-43). -/
def fields_in_range (t : EsphomelibTime) : Prop :=
  t.second ≤ 60 ∧ t.minute ≤ 59 ∧ t.hour ≤ 23 ∧
  (1 ≤ t.day_of_week ∧ t.day_of_week ≤ 7) ∧
  (1 ≤ t.day_of_month ∧ t.day_of_month ≤ 31) ∧
  (1 ≤ t.month ∧ t.month ≤ 12)

instance (t : EsphomelibTime) : Decidable t.fields_in_range := by
  unfold fields_in_range
  infer_instance

/-- Modelled from the spec: `EsphomelibTime::is_valid` (declared in rtc_component.h:66, its
body is not part of the sources): holds iff `year ≥ 2019`. -/
def is_valid (t : EsphomelibTime) : Bool := decide (2019 ≤ t.year)

/-- Modelled from the spec: equality at minute granularity, "same
year/month/day/hour/minute" (step 3 of the steady-state transition of the Cron Trigger). -/
def same_minute (a b : EsphomelibTime) : Bool :=
  decide (a.year = b.year ∧ a.month = b.month ∧ a.day_of_month = b.day_of_month ∧
    a.hour = b.hour ∧ a.minute = b.minute)

end EsphomelibTime

/-- A `std::bitset<size>`: `bit i` is the bit at position `i`; only the positions below
`size` belong to the set. -/
structure Bitset (size : Nat) where
  bit : Nat → Bool

namespace Bitset

variable {size : Nat}

/-- A default-constructed bitset: no bit set. -/
def empty (size : Nat) : Bitset size := { bit := fun _ => false }

/-- The number of positions, `std::bitset::size`. -/
def length (_b : Bitset size) : Nat := size

/-- Checked access `std::bitset::test`: `none` when the position is out of range. -/
def test (b : Bitset size) (i : Nat) : Option Bool :=
  if i < size then some (b.bit i) else none

/-- No bit is set, `std::bitset::none`. -/
def none (b : Bitset size) : Bool := (List.range size).all fun i => !b.bit i

/-- The bitset with the bit at position `i` set, `std::bitset::set`. -/
def set (b : Bitset size) (i : Nat) : Bitset size := { bit := fun j => j == i || b.bit j }

end Bitset

/-- The data members of `CronTrigger` (rtc_component.h:95-102); the time source `rtc_` is
an argument of `loop`. -/
structure CronTrigger where
  seconds_ : Bitset 61
  minutes_ : Bitset 60
  hours_ : Bitset 24
  days_of_month_ : Bitset 32
  months_ : Bitset 13
  days_of_week_ : Bitset 8
  last_check_ : Option EsphomelibTime

namespace CronTrigger

/-- The constructed trigger: all six masks empty, `last_check_` unset. -/
def init : CronTrigger :=
  { seconds_ := Bitset.empty 61, minutes_ := Bitset.empty 60, hours_ := Bitset.empty 24,
    days_of_month_ := Bitset.empty 32, months_ := Bitset.empty 13,
    days_of_week_ := Bitset.empty 8, last_check_ := Option.none }

/-- Modelled from the spec: `CronTrigger::add_minute` (declared in rtc_component.h:86, body
not part of the sources): sets a single bit of the mask. -/
def add_minute (c : CronTrigger) (minute : Nat) : CronTrigger :=
  { c with minutes_ := c.minutes_.set minute }

/-- Modelled from the spec: `CronTrigger::add_day_of_month` (rtc_component.h:88, body not
part of the sources): sets a single bit of the mask. -/
def add_day_of_month (c : CronTrigger) (day_of_month : Nat) : CronTrigger :=
  { c with days_of_month_ := c.days_of_month_.set day_of_month }

/-- Modelled from the spec: `CronTrigger::add_day_of_week` (rtc_component.h:90, body not
part of the sources): sets a single bit of the mask. -/
def add_day_of_week (c : CronTrigger) (day_of_week : Nat) : CronTrigger :=
  { c with days_of_week_ := c.days_of_week_.set day_of_week }

/-- Modelled from the spec: the match predicate of one field, "a field matches if its
bit-set is empty (unconstrained) OR the corresponding bit of the current value is set". -/
def field_matches {size : Nat} (mask : Bitset size) (value : Nat) : Bool :=
  mask.none || (mask.test value == some true)

/-- Modelled from the spec: `CronTrigger::matches` (declared in rtc_component.h:91, body
not part of the sources): "All six fields must match". -/
def «matches» (c : CronTrigger) (t : EsphomelibTime) : Bool :=
  field_matches c.seconds_ t.second && field_matches c.minutes_ t.minute &&
  field_matches c.hours_ t.hour && field_matches c.days_of_month_ t.day_of_month &&
  field_matches c.months_ t.month && field_matches c.days_of_week_ t.day_of_week

/-- Modelled from the spec: the whole minute boundaries "strictly between last_check and
t (inclusive of t)", in chronological order, as instants in epoch seconds: the multiples
`e` of 60 with `last.time < e ≤ t.time` (ordering of times compares `epoch_seconds` only;
the zone offset is taken to be a whole number of minutes). -/
def minute_boundaries (last t : EsphomelibTime) : List Int :=
  (List.range (t.time / 60 - last.time / 60).toNat).map
    fun (j : Nat) => 60 * (last.time / 60 + 1 + (j : Int))

/-- Modelled from the spec: `CronTrigger::loop` (declared in rtc_component.h:92, body not
part of the sources), one tick of the state machine of the Cron Trigger.  `zone` is the
decomposition of an instant by the time source in the configured zone, `t` the time
`now()` returns at this tick.  The result is the new state and the minute boundaries for
which the trigger fired, in the order of firing. -/
def loop (zone : Int → EsphomelibTime) (c : CronTrigger) (t : EsphomelibTime) :
    CronTrigger × List Int :=
  if !t.is_valid then (c, [])
  else
    match c.last_check_ with
    | Option.none => ({ c with last_check_ := some t }, [])
    | some last =>
      if t.same_minute last then (c, [])
      else
        ({ c with last_check_ := some t },
          (minute_boundaries last t).filter fun e => c.matches (zone e))

/-- The ticks of the scheduler: `loop` called once for each time of the list; the firings
of all ticks in order. -/
def run (zone : Int → EsphomelibTime) : CronTrigger → List EsphomelibTime →
    CronTrigger × List Int
  | c, [] => (c, [])
  | c, t :: ts =>
    let r := loop zone c t
    let rs := run zone r.1 ts
    (rs.1, r.2 ++ rs.2)

end CronTrigger

/-! ## Concrete inputs -/

/-- Float expressions kept symbolic: a term model of `FloatOps`. -/
inductive FloatExpr
  | nan
  | ofInt (z : Int)
  | mul (a b : FloatExpr)
  | div (a b : FloatExpr)
  deriving DecidableEq, Repr

/-- The operations of the term model. -/
def FloatExpr.ops : FloatOps FloatExpr :=
  { nan := FloatExpr.nan, ofInt := FloatExpr.ofInt, mul := FloatExpr.mul, div := FloatExpr.div }

/-- A bus on which every transaction succeeds; every read returns the word `1234`. -/
def good_bus : I2CBus :=
  { write_byte_16 := fun _ _ _ => true, read_byte_16 := fun _ _ => some 1234 }

/-- A bus on which every transaction fails. -/
def dead_bus : I2CBus :=
  { write_byte_16 := fun _ _ _ => false, read_byte_16 := fun _ _ => none }

/-- A channel without sensors, shunt resistance 0.1 ohm. -/
def no_sensors : INA3221Channel FloatExpr :=
  { bus_voltage_sensor_ := false, shunt_voltage_sensor_ := false, current_sensor_ := false,
    power_sensor_ := false,
    shunt_resistance_ := FloatExpr.div (FloatExpr.ofInt 1) (FloatExpr.ofInt 10) }

/-- A freshly constructed component whose channel 0 has a bus voltage sensor and whose
channel 2 has a power sensor. -/
def sample_component : INA3221Component FloatExpr :=
  { channels := fun i =>
      if i = 0 then { no_sensors with bus_voltage_sensor_ := true }
      else if i = 2 then { no_sensors with power_sensor_ := true }
      else no_sensors,
    failed := false, warning := false, transactions := 0, log := [] }

/-- A bus whose first transaction succeeds (a read returns `1234`) and whose later
transactions all fail. -/
def flaky_bus : I2CBus :=
  { write_byte_16 := fun n _ _ => n == 0,
    read_byte_16 := fun n _ => if n = 0 then some 1234 else none }

/-- Modelled from the spec: the decomposition `utcnow` of the time source gives for the
instant `e` (epoch seconds): the proleptic Gregorian calendar with zero offset and
`is_dst = false`.  Used for concrete inputs only. -/
def utc (e : Int) : EsphomelibTime :=
  let days := e / 86400
  let secs := (e % 86400).toNat
  let z := days + 719468
  let era := z / 146097
  let doe := (z - era * 146097).toNat
  let yoe := (doe - doe / 1460 + doe / 36524 - doe / 146096) / 365
  let doy := doe - (365 * yoe + yoe / 4 - yoe / 100)
  let mp := (5 * doy + 2) / 153
  let d := doy - (153 * mp + 2) / 5 + 1
  let m := if mp < 10 then mp + 3 else mp - 9
  let y := ((yoe : Int) + era * 400 + (if m ≤ 2 then 1 else 0)).toNat
  let leap : Nat := if y % 4 = 0 ∧ (y % 100 ≠ 0 ∨ y % 400 = 0) then 1 else 0
  { second := secs % 60, minute := secs % 3600 / 60, hour := secs / 3600,
    day_of_week := ((days + 4) % 7).toNat + 1, day_of_month := d,
    day_of_year := if 3 ≤ m then doy + 60 + leap else doy - 305,
    month := m, year := y, is_dst := false, time := e }

/-- 2019-01-01 00:29:59 UTC, a Tuesday. -/
def t_002959 : EsphomelibTime := utc 1546302599

/-- 2019-01-01 00:30:00 UTC. -/
def t_003000 : EsphomelibTime := utc 1546302600

/-- 2019-01-01 00:30:15 UTC. -/
def t_003015 : EsphomelibTime := utc 1546302615

/-- A trigger with all six masks empty, last checked at 00:29:59. -/
def armed_trigger : CronTrigger := { CronTrigger.init with last_check_ := some t_002959 }

/-- A trigger for the first day of the month that must also be a Monday (day 2 of the
week). -/
def first_and_monday : CronTrigger :=
  (CronTrigger.init.add_day_of_month 1).add_day_of_week 2

/-! ## Theorems: INA3221 setup -/

namespace INA3221Component

variable {F : Type}

theorem setup_config_channels (c : INA3221Component F) (f w : Bool) (t : Nat)
    (l : List (Event F)) :
    setup_config { channels := c.channels, failed := f, warning := w, transactions := t, log := l }
      = setup_config c := rfl

theorem setup_log_eq (bus : I2CBus) (c : INA3221Component F) :
    setup_log bus c =
      if bus.write_byte_16 c.transactions 0x00 0x8000 then
        if bus.write_byte_16 (c.transactions + 1) 0x00 (setup_config c) then
          [Event.write_byte_16 0x00 0x8000 true, Event.delay 1,
            Event.write_byte_16 0x00 (setup_config c) true]
        else
          [Event.write_byte_16 0x00 0x8000 true, Event.delay 1,
            Event.write_byte_16 0x00 (setup_config c) false, Event.mark_failed]
      else [Event.write_byte_16 0x00 0x8000 false, Event.mark_failed] := by
  unfold setup_log new_events setup
  cases h1 : bus.write_byte_16 c.transactions 0x00 0x8000 <;>
  cases h2 : bus.write_byte_16 (c.transactions + 1) 0x00 (setup_config c) <;>
  simp [write_byte_16, INA3221_REGISTER_CONFIG, mark_failed, delay, h1, h2,
    setup_config_channels]

theorem setup_failed_eq (bus : I2CBus) (c : INA3221Component F) :
    (setup bus c).failed =
      (c.failed || !bus.write_byte_16 c.transactions 0x00 0x8000 ||
        !bus.write_byte_16 (c.transactions + 1) 0x00 (setup_config c)) := by
  unfold setup
  cases h1 : bus.write_byte_16 c.transactions 0x00 0x8000 <;>
  cases h2 : bus.write_byte_16 (c.transactions + 1) 0x00 (setup_config c) <;>
  simp [write_byte_16, INA3221_REGISTER_CONFIG, mark_failed, delay, h1, h2,
    setup_config_channels]

theorem setup_config_eq (c : INA3221Component F) :
    setup_config c =
      (0x0FFF ||| (if (c.channels 0).exists then 0x4000 else 0)
        ||| (if (c.channels 1).exists then 0x2000 else 0)
        ||| (if (c.channels 2).exists then 0x1000 else 0)) := by
  unfold setup_config
  cases (c.channels 0).exists <;> cases (c.channels 1).exists <;>
    cases (c.channels 2).exists <;> decide

/-- C1: `setup` issues the reset write (0x8000 to register 0x00) first.  It calls
`mark_failed`, and the component is failed afterwards when it was not before, exactly when
the reset write fails or the reset write succeeds and the configuration write fails.  After
a failed reset write the only calls made are that write and `mark_failed` (no second
write); when both writes succeed `mark_failed` is not called and `failed` is unchanged. -/
theorem setup_mark_failed_iff (bus : I2CBus) (c : INA3221Component F) :
    (Event.mark_failed ∈ setup_log bus c ↔
      (bus.write_byte_16 c.transactions 0x00 0x8000 = false ∨
        (bus.write_byte_16 c.transactions 0x00 0x8000 = true ∧
          bus.write_byte_16 (c.transactions + 1) 0x00 (setup_config c) = false))) ∧
    ((setup bus c).failed = true ↔
      (c.failed = true ∨ bus.write_byte_16 c.transactions 0x00 0x8000 = false ∨
        (bus.write_byte_16 c.transactions 0x00 0x8000 = true ∧
          bus.write_byte_16 (c.transactions + 1) 0x00 (setup_config c) = false))) ∧
    (bus.write_byte_16 c.transactions 0x00 0x8000 = false →
      setup_log bus c = [Event.write_byte_16 0x00 0x8000 false, Event.mark_failed]) ∧
    (bus.write_byte_16 c.transactions 0x00 0x8000 = true →
      ∃ ok, setup_log bus c =
        Event.write_byte_16 0x00 0x8000 true :: Event.delay 1 ::
          Event.write_byte_16 0x00 (setup_config c) ok ::
            (if ok then [] else [Event.mark_failed]) ∧
        ok = bus.write_byte_16 (c.transactions + 1) 0x00 (setup_config c)) ∧
    (bus.write_byte_16 c.transactions 0x00 0x8000 = true →
      bus.write_byte_16 (c.transactions + 1) 0x00 (setup_config c) = true →
      Event.mark_failed ∉ setup_log bus c ∧ (setup bus c).failed = c.failed) := by
  rw [setup_log_eq, setup_failed_eq]
  cases h1 : bus.write_byte_16 c.transactions 0x00 0x8000 <;>
  cases h2 : bus.write_byte_16 (c.transactions + 1) 0x00 (setup_config c) <;>
  simp

/-- C7: when the reset write succeeds, the second call of `setup` writes to register 0x00
the word `0x0FFF` or-ed with `0x4000`, `0x2000`, `0x1000` for the channels 0, 1, 2 that
`exists()`.  Bit 15 of the word is clear, bits 14, 13, 12 are the three `exists()` values,
the four three-bit fields at bits 9, 6, 3 and 0 are all 7, and the word lies between
`0x0FFF` and `0x7FFF`. -/
theorem setup_config_word (bus : I2CBus) (c : INA3221Component F)
    (hreset : bus.write_byte_16 c.transactions 0x00 0x8000 = true) :
    (∃ ok rest, setup_log bus c =
      Event.write_byte_16 0x00 0x8000 true :: Event.delay 1 ::
        Event.write_byte_16 0x00 (setup_config c) ok :: rest ∧
        ∀ reg value ok2, Event.write_byte_16 reg value ok2 ∉ rest) ∧
    setup_config c =
      (0x0FFF ||| (if (c.channels 0).exists then 0x4000 else 0)
        ||| (if (c.channels 1).exists then 0x2000 else 0)
        ||| (if (c.channels 2).exists then 0x1000 else 0)) ∧
    (setup_config c).testBit 15 = false ∧
    (setup_config c).testBit 14 = (c.channels 0).exists ∧
    (setup_config c).testBit 13 = (c.channels 1).exists ∧
    (setup_config c).testBit 12 = (c.channels 2).exists ∧
    (setup_config c >>> 9) % 8 = 0b111 ∧
    (setup_config c >>> 6) % 8 = 0b111 ∧
    (setup_config c >>> 3) % 8 = 0b111 ∧
    setup_config c % 8 = 0b111 ∧
    0x0FFF ≤ setup_config c ∧ setup_config c ≤ 0x7FFF := by
  refine ⟨?_, setup_config_eq c, ?_⟩
  · rw [setup_log_eq, hreset]
    cases h2 : bus.write_byte_16 (c.transactions + 1) 0x00 (setup_config c) <;> simp
  · rw [setup_config_eq]
    cases (c.channels 0).exists <;> cases (c.channels 1).exists <;>
      cases (c.channels 2).exists <;> decide

/-! ## Theorems: INA3221 update, one channel -/

theorem update_channel_eq (ops : FloatOps F) (bus : I2CBus) (i : Fin 3)
    (c : INA3221Component F) :
    (update_channel ops bus i c).1.channels = c.channels ∧
    (update_channel ops bus i c).1.failed = c.failed ∧
    (update_channel ops bus i c).1.log = c.log ++
      (channel_calls ops (c.channels i) i
        ((bus.read_byte_16 c.transactions (ina3221_bus_voltage_register i)).map (· % 65536))
        ((bus.read_byte_16
            (c.transactions + if (c.channels i).should_measure_bus_voltage then 1 else 0)
            (ina3221_shunt_voltage_register i)).map (· % 65536))).1 ∧
    (update_channel ops bus i c).2 =
      (channel_calls ops (c.channels i) i
        ((bus.read_byte_16 c.transactions (ina3221_bus_voltage_register i)).map (· % 65536))
        ((bus.read_byte_16
            (c.transactions + if (c.channels i).should_measure_bus_voltage then 1 else 0)
            (ina3221_shunt_voltage_register i)).map (· % 65536))).2 := by
  unfold update_channel channel_calls
  rcases hch : c.channels i with ⟨b, s, cu, p, r⟩
  rcases hb : bus.read_byte_16 c.transactions (ina3221_bus_voltage_register i) with _ | rb <;>
  rcases hs1 : bus.read_byte_16 c.transactions (ina3221_shunt_voltage_register i)
    with _ | rs1 <;>
  rcases hs2 : bus.read_byte_16 (c.transactions + 1) (ina3221_shunt_voltage_register i)
    with _ | rs2 <;>
  cases b <;> cases s <;> cases cu <;> cases p <;>
  simp [INA3221Channel.should_measure_bus_voltage, INA3221Channel.should_measure_shunt_voltage,
    read_byte_16, status_set_warning, push_new_value, hb, hs1, hs2]

theorem register_ne (i : Fin 3) :
    ina3221_shunt_voltage_register i ≠ ina3221_bus_voltage_register i := by
  revert i; decide

theorem register_ne_symm (i : Fin 3) :
    ina3221_bus_voltage_register i ≠ ina3221_shunt_voltage_register i := by
  revert i; decide

theorem register_inj (i j : Fin 3) :
    (ina3221_bus_voltage_register i = ina3221_bus_voltage_register j ↔ i = j) ∧
    (ina3221_shunt_voltage_register i = ina3221_shunt_voltage_register j ↔ i = j) ∧
    ina3221_bus_voltage_register i ≠ ina3221_shunt_voltage_register j := by
  revert i j; decide

theorem channel_calls_shape (ops : FloatOps F) (ch : INA3221Channel F) (i : Fin 3)
    (rb rs : Option Nat) :
    (if (channel_calls ops ch i rb rs).2 then Clean (channel_calls ops ch i rb rs).1
      else EndsInFailure (channel_calls ops ch i rb rs).1) := by
  unfold channel_calls
  rcases ch with ⟨b, s, cu, p, r⟩
  rcases rb with _ | rb <;> rcases rs with _ | rs <;>
  cases b <;> cases s <;> cases cu <;> cases p <;>
  simp [INA3221Channel.should_measure_bus_voltage, INA3221Channel.should_measure_shunt_voltage,
    Clean, EndsInFailure]

theorem channel_calls_own (ops : FloatOps F) (ch : INA3221Channel F) (i : Fin 3)
    (rb rs : Option Nat) :
    ∀ e ∈ (channel_calls ops ch i rb rs).1, Own i e := by
  unfold channel_calls
  rcases ch with ⟨b, s, cu, p, r⟩
  rcases rb with _ | rb <;> rcases rs with _ | rs <;>
  cases b <;> cases s <;> cases cu <;> cases p <;>
  simp [INA3221Channel.should_measure_bus_voltage, INA3221Channel.should_measure_shunt_voltage,
    Own]

theorem channel_calls_justified (ops : FloatOps F) (chs : Fin 3 → INA3221Channel F) (i : Fin 3)
    (rb rs : Option Nat) :
    JustifiedFrom ops chs [] (channel_calls ops (chs i) i rb rs).1 := by
  unfold channel_calls
  rcases hch : chs i with ⟨b, s, cu, p, r⟩
  rcases rb with _ | rb <;> rcases rs with _ | rs <;>
  cases b <;> cases s <;> cases cu <;> cases p <;>
  simp [INA3221Channel.should_measure_bus_voltage, INA3221Channel.should_measure_shunt_voltage,
    JustifiedFrom, Justified, hch, register_ne, register_ne_symm]

theorem channel_calls_reads (ops : FloatOps F) (ch : INA3221Channel F) (i : Fin 3)
    (rb rs : Option Nat) :
    ((channel_calls ops ch i rb rs).2 = true →
      ((∃ e ∈ (channel_calls ops ch i rb rs).1, ReadsChannel i e) ↔ ch.exists = true)) ∧
    (ch.exists = false → (channel_calls ops ch i rb rs).1 = []) ∧
    (rb.isSome = true → rs.isSome = true → (channel_calls ops ch i rb rs).2 = true) := by
  unfold channel_calls
  rcases ch with ⟨b, s, cu, p, r⟩
  rcases rb with _ | rb <;> rcases rs with _ | rs <;>
  cases b <;> cases s <;> cases cu <;> cases p <;>
  simp [INA3221Channel.should_measure_bus_voltage, INA3221Channel.should_measure_shunt_voltage,
    INA3221Channel.exists, ReadsChannel]

/-! ## Theorems: lists of calls -/

theorem clean_cons (e : Event F) (l : List (Event F)) : Clean (e :: l) ↔ ¬ Bad e ∧ Clean l := by
  cases e with
  | read_byte_16 reg result => cases result <;> simp [Clean, Bad]
  | _ => simp [Clean, Bad]

theorem endsInFailure_cons_good (e : Event F) (l : List (Event F)) (h : ¬ Bad e) :
    EndsInFailure (e :: l) ↔ EndsInFailure l := by
  cases e with
  | read_byte_16 reg result => cases result <;> simp_all [EndsInFailure, Bad]
  | _ => simp_all [EndsInFailure, Bad]

theorem endsInFailure_cons_bad (e : Event F) (l : List (Event F)) (h : Bad e) :
    EndsInFailure (e :: l) ↔
      (∃ reg, e = Event.read_byte_16 reg none) ∧ l = [Event.status_set_warning] := by
  cases e with
  | read_byte_16 reg result => cases result <;> simp_all [EndsInFailure, Bad]
  | _ => simp_all [EndsInFailure, Bad]

theorem clean_append (a b : List (Event F)) : Clean (a ++ b) ↔ Clean a ∧ Clean b := by
  induction a with
  | nil => simp [Clean]
  | cons e a ih => simp [clean_cons, ih, and_assoc]

theorem endsInFailure_append (a b : List (Event F)) (h : Clean a) :
    EndsInFailure (a ++ b) ↔ EndsInFailure b := by
  induction a with
  | nil => simp
  | cons e a ih =>
    rw [clean_cons] at h
    rw [List.cons_append, endsInFailure_cons_good _ _ h.1, ih h.2]

theorem clean_not_bad {l : List (Event F)} (h : Clean l) : ∀ e ∈ l, ¬ Bad e := by
  induction l with
  | nil => simp
  | cons e l ih =>
    rw [clean_cons] at h
    intro x hx
    rcases List.mem_cons.1 hx with rfl | hx
    · exact h.1
    · exact ih h.2 x hx

/-- Where a failed read or a warning can stand in a list of calls that is clean or ends
in a failure. -/
theorem shape_split {l : List (Event F)} (hl : Clean l ∨ EndsInFailure l)
    {pre post : List (Event F)} {y : Event F} (hy : Bad y) (h : l = pre ++ y :: post) :
    ((∃ reg, y = Event.read_byte_16 reg none) ∧ post = [Event.status_set_warning] ∧
        Clean pre) ∨
    (y = Event.status_set_warning ∧ post = [] ∧
      ∃ pre1 reg, pre = pre1 ++ [Event.read_byte_16 reg none] ∧ Clean pre1) := by
  induction l generalizing pre with
  | nil => simp at h
  | cons e l ih =>
    cases pre with
    | nil =>
      simp only [List.nil_append, List.cons.injEq] at h
      obtain ⟨rfl, rfl⟩ := h
      rcases hl with hl | hl
      · exact absurd hy (clean_cons _ _ |>.1 hl).1
      · rw [endsInFailure_cons_bad _ _ hy] at hl
        exact Or.inl ⟨hl.1, hl.2, by simp [Clean]⟩
    | cons a pre1 =>
      simp only [List.cons_append, List.cons.injEq] at h
      obtain ⟨rfl, h⟩ := h
      by_cases he : Bad e
      · rcases hl with hl | hl
        · exact absurd he (clean_cons _ _ |>.1 hl).1
        · rw [endsInFailure_cons_bad _ _ he] at hl
          obtain ⟨⟨reg, rfl⟩, hl⟩ := hl
          rw [hl] at h
          cases pre1 with
          | nil =>
            simp only [List.nil_append, List.cons.injEq] at h
            exact Or.inr ⟨h.1.symm, h.2.symm, [], reg, by simp, by simp [Clean]⟩
          | cons b pre2 =>
            simp at h
      · have hl1 : Clean l ∨ EndsInFailure l := by
          rcases hl with hl | hl
          · exact Or.inl (clean_cons _ _ |>.1 hl).2
          · exact Or.inr ((endsInFailure_cons_good _ _ he).1 hl)
        rcases ih hl1 h with ⟨h1, h2, h3⟩ | ⟨h1, h2, p, reg, h3, h4⟩
        · exact Or.inl ⟨h1, h2, (clean_cons _ _).2 ⟨he, h3⟩⟩
        · exact Or.inr ⟨h1, h2, e :: p, reg, by simp [h3], (clean_cons _ _).2 ⟨he, h4⟩⟩

theorem justified_mono (ops : FloatOps F) (chs : Fin 3 → INA3221Channel F)
    {p q : List (Event F)} (hpq : ∀ x ∈ p, x ∈ q) (e : Event F) (h : Justified ops chs p e) :
    Justified ops chs q e := by
  cases e with
  | push_new_value i s v =>
    cases s
    · obtain ⟨rb, h1, h2⟩ := h
      exact ⟨rb, hpq _ h1, h2⟩
    · obtain ⟨rs, h1, h2⟩ := h
      exact ⟨rs, hpq _ h1, h2⟩
    · obtain ⟨rs, h1, h2⟩ := h
      exact ⟨rs, hpq _ h1, h2⟩
    · obtain ⟨rb, rs, h1, h2, h3⟩ := h
      exact ⟨rb, rs, hpq _ h1, hpq _ h2, h3⟩
  | _ => trivial

theorem justifiedFrom_mono (ops : FloatOps F) (chs : Fin 3 → INA3221Channel F)
    (l : List (Event F)) {p q : List (Event F)} (hpq : ∀ x ∈ p, x ∈ q)
    (h : JustifiedFrom ops chs p l) : JustifiedFrom ops chs q l := by
  induction l generalizing p q with
  | nil => trivial
  | cons e l ih =>
    refine ⟨justified_mono ops chs hpq e h.1, ih ?_ h.2⟩
    intro x hx
    rcases List.mem_append.1 hx with hx | hx
    · exact List.mem_append_left _ (hpq x hx)
    · exact List.mem_append_right _ hx

theorem justifiedFrom_append (ops : FloatOps F) (chs : Fin 3 → INA3221Channel F)
    (a b p : List (Event F)) (ha : JustifiedFrom ops chs p a)
    (hb : JustifiedFrom ops chs [] b) : JustifiedFrom ops chs p (a ++ b) := by
  induction a generalizing p with
  | nil => exact justifiedFrom_mono ops chs b (by simp) hb
  | cons e a ih => exact ⟨ha.1, ih _ ha.2⟩

theorem justifiedFrom_split (ops : FloatOps F) (chs : Fin 3 → INA3221Channel F)
    {l p pre post : List (Event F)} {e : Event F} (hl : JustifiedFrom ops chs p l)
    (h : l = pre ++ e :: post) : Justified ops chs (p ++ pre) e := by
  induction l generalizing p pre with
  | nil => simp at h
  | cons x l ih =>
    cases pre with
    | nil =>
      simp only [List.nil_append, List.cons.injEq] at h
      obtain ⟨rfl, -⟩ := h
      simpa using hl.1
    | cons a pre1 =>
      simp only [List.cons_append, List.cons.injEq] at h
      obtain ⟨rfl, h⟩ := h
      have := ih hl.2 h
      simpa using this

/-! ## Theorems: INA3221 update, all channels -/

theorem own_not_mark_failed {i : Fin 3} {e : Event F} (h : Own i e) : e ≠ Event.mark_failed := by
  rintro rfl
  exact h

theorem own_reads {i j : Fin 3} {e : Event F} (h : Own j e) (hr : ReadsChannel i e) : i = j := by
  cases e with
  | read_byte_16 reg result =>
    have hij := register_inj i j
    have hji := register_inj j i
    rcases h with h | h <;> rcases hr with hr | hr <;> rw [h] at hr
    · exact (hij.1.1 hr.symm)
    · exact absurd hr (register_inj j i).2.2
    · exact absurd hr.symm (register_inj i j).2.2
    · exact (hij.2.1.1 hr.symm)
  | _ => exact absurd hr (by simp [ReadsChannel])

theorem own_pushes {i j : Fin 3} {e : Event F} (h : Own j e) (hp : PushesChannel i e) :
    i = j := by
  cases e with
  | push_new_value k s v => exact hp.symm.trans h
  | _ => exact absurd hp (by simp [PushesChannel])

theorem update_channels_spec (ops : FloatOps F) (bus : I2CBus) (is : List (Fin 3))
    (c : INA3221Component F) :
    ∃ calls, (update_channels ops bus is c).log = c.log ++ calls ∧
      (update_channels ops bus is c).channels = c.channels ∧
      (update_channels ops bus is c).failed = c.failed ∧
      (Clean calls ∨ EndsInFailure calls) ∧
      JustifiedFrom ops c.channels [] calls ∧
      (∀ e ∈ calls, ∃ j ∈ is, Own j e ∧ (c.channels j).exists = true) ∧
      ((∀ n reg, (bus.read_byte_16 n reg).isSome = true) →
        ∀ i, (∃ e ∈ calls, ReadsChannel i e) → (i ∈ is ∧ (c.channels i).exists = true)) ∧
      ((∀ n reg, (bus.read_byte_16 n reg).isSome = true) → is.Nodup →
        ∀ i, i ∈ is → (c.channels i).exists = true → ∃ e ∈ calls, ReadsChannel i e) := by
  induction is generalizing c with
  | nil =>
    exact ⟨[], by simp [update_channels], rfl, rfl, Or.inl (by simp [Clean]), trivial,
      by simp, by simp, by simp⟩
  | cons i rest ih =>
    obtain ⟨hch, hfail, hlog, hcont⟩ := update_channel_eq ops bus i c
    generalize hrb :
      (bus.read_byte_16 c.transactions (ina3221_bus_voltage_register i)).map (· % 65536) = rb
      at hlog hcont
    generalize hrs :
      (bus.read_byte_16
        (c.transactions + if (c.channels i).should_measure_bus_voltage then 1 else 0)
        (ina3221_shunt_voltage_register i)).map (· % 65536) = rs at hlog hcont
    have hshape := channel_calls_shape ops (c.channels i) i rb rs
    have hown := channel_calls_own ops (c.channels i) i rb rs
    have hjust := channel_calls_justified ops c.channels i rb rs
    obtain ⟨hreads, hempty, htotal⟩ := channel_calls_reads ops (c.channels i) i rb rs
    have hex : ∀ e ∈ (channel_calls ops (c.channels i) i rb rs).1,
        ∃ j ∈ i :: rest, Own j e ∧ (c.channels j).exists = true := by
      intro e he
      refine ⟨i, List.mem_cons_self _ _, hown e he, ?_⟩
      by_contra hne
      rw [hempty (by simpa using hne)] at he
      simp at he
    have hsome : (∀ n reg, (bus.read_byte_16 n reg).isSome = true) →
        (channel_calls ops (c.channels i) i rb rs).2 = true := by
      intro hall
      apply htotal
      · rw [← hrb]; simpa using hall _ _
      · rw [← hrs]; simpa using hall _ _
    cases hc : (update_channel ops bus i c).2 with
    | false =>
      have hres : update_channels ops bus (i :: rest) c = (update_channel ops bus i c).1 := by
        rw [update_channels]
        rcases hu : update_channel ops bus i c with ⟨c1, b⟩
        rw [hu] at hc
        simp only at hc
        subst hc
        rfl
      rw [hres]
      rw [hc] at hcont
      rw [← hcont] at hshape
      refine ⟨_, hlog, hch, hfail, Or.inr (by simpa using hshape), hjust, hex, ?_, ?_⟩
      · intro hall
        rw [hsome hall] at hcont
        exact absurd hcont (by simp)
      · intro hall
        rw [hsome hall] at hcont
        exact absurd hcont (by simp)
    | true =>
      have hres : update_channels ops bus (i :: rest) c =
          update_channels ops bus rest (update_channel ops bus i c).1 := by
        rw [update_channels]
        rcases hu : update_channel ops bus i c with ⟨c1, b⟩
        rw [hu] at hc
        simp only at hc
        subst hc
        rfl
      rw [hres]
      rw [hc] at hcont
      rw [← hcont] at hshape hreads
      simp only [if_true] at hshape
      obtain ⟨calls, h1, h2, h3, h4, h5, h6, h7, h8⟩ := ih (update_channel ops bus i c).1
      rw [hch] at h2 h5 h6 h7 h8
      refine ⟨(channel_calls ops (c.channels i) i rb rs).1 ++ calls, ?_, h2, ?_, ?_, ?_, ?_,
        ?_, ?_⟩
      · rw [h1, hlog, List.append_assoc]
      · rw [h3, hfail]
      · rcases h4 with h4 | h4
        · exact Or.inl ((clean_append _ _).2 ⟨hshape, h4⟩)
        · exact Or.inr ((endsInFailure_append _ _ hshape).2 h4)
      · exact justifiedFrom_append ops c.channels _ _ _ hjust h5
      · intro e he
        rcases List.mem_append.1 he with he | he
        · exact hex e he
        · obtain ⟨j, hj, hj2⟩ := h6 e he
          exact ⟨j, List.mem_cons_of_mem _ hj, hj2⟩
      · intro hall k ⟨e, he, hk⟩
        rcases List.mem_append.1 he with he | he
        · obtain ⟨j, -, hj, hj2⟩ := hex e he
          have hown1 := hown e he
          have : k = i := own_reads hown1 hk
          subst this
          exact ⟨List.mem_cons_self _ _, (hreads rfl).1 ⟨e, he, hk⟩⟩
        · obtain ⟨hk1, hk2⟩ := h7 hall k ⟨e, he, hk⟩
          exact ⟨List.mem_cons_of_mem _ hk1, hk2⟩
      · intro hall hnd k hk hkex
        rcases List.mem_cons.1 hk with rfl | hk
        · obtain ⟨e, he, hk⟩ := (hreads rfl).2 hkex
          exact ⟨e, List.mem_append_left _ he, hk⟩
        · obtain ⟨e, he, hk2⟩ := h8 hall (List.nodup_cons.1 hnd).2 k hk hkex
          exact ⟨e, List.mem_append_right _ he, hk2⟩

theorem update_log_spec (ops : FloatOps F) (bus : I2CBus) (c : INA3221Component F) :
    (update ops bus c).log = c.log ++ update_log ops bus c ∧
      (update ops bus c).channels = c.channels ∧
      (update ops bus c).failed = c.failed ∧
      (Clean (update_log ops bus c) ∨ EndsInFailure (update_log ops bus c)) ∧
      JustifiedFrom ops c.channels [] (update_log ops bus c) ∧
      (∀ e ∈ update_log ops bus c, ∃ j, Own j e ∧ (c.channels j).exists = true) ∧
      ((∀ n reg, (bus.read_byte_16 n reg).isSome = true) →
        ∀ i, (∃ e ∈ update_log ops bus c, ReadsChannel i e) ↔ (c.channels i).exists = true) := by
  obtain ⟨calls, h1, h2, h3, h4, h5, h6, h7, h8⟩ := update_channels_spec ops bus [0, 1, 2] c
  have hlog : update_log ops bus c = calls := by
    unfold update_log new_events update
    rw [h1]
    simp
  rw [hlog]
  refine ⟨h1, h2, h3, h4, h5, ?_, ?_⟩
  · intro e he
    obtain ⟨j, -, hj⟩ := h6 e he
    exact ⟨j, hj⟩
  · intro hall i
    have hmem : ∀ k : Fin 3, k ∈ [(0 : Fin 3), 1, 2] := by decide
    exact ⟨fun h => (h7 hall i h).2, fun h => h8 hall (by decide) i (hmem i) h⟩

/-! ## Theorems: INA3221 update, the claims -/

/-- C2: in one call of `update`, `status_set_warning` is called if and only if a register
read fails.  A failed read is followed by `status_set_warning` and by nothing else (no
further read, no push), no read before it failed, and `status_set_warning` is only ever
called as the last call, directly after a failed read. -/
theorem update_warning_iff_read_fails (ops : FloatOps F) (bus : I2CBus)
    (c : INA3221Component F) :
    (Event.status_set_warning ∈ update_log ops bus c ↔
      ∃ reg, Event.read_byte_16 reg none ∈ update_log ops bus c) ∧
    (∀ pre reg post, update_log ops bus c = pre ++ Event.read_byte_16 reg none :: post →
      post = [Event.status_set_warning] ∧
      Event.status_set_warning ∉ pre ∧ ∀ reg1, Event.read_byte_16 reg1 none ∉ pre) ∧
    (∀ pre post, update_log ops bus c = pre ++ Event.status_set_warning :: post →
      post = [] ∧ ∃ pre1 reg, pre = pre1 ++ [Event.read_byte_16 reg none]) := by
  have hshape := (update_log_spec ops bus c).2.2.2.1
  have hread : ∀ pre reg post,
      update_log ops bus c = pre ++ Event.read_byte_16 reg none :: post →
      post = [Event.status_set_warning] ∧
      Event.status_set_warning ∉ pre ∧ ∀ reg1, Event.read_byte_16 reg1 none ∉ pre := by
    intro pre reg post h
    rcases shape_split hshape (by simp [Bad]) h with ⟨-, h2, h3⟩ | ⟨h1, -⟩
    · refine ⟨h2, fun hm => clean_not_bad h3 _ hm (by simp [Bad]), fun reg1 hm => ?_⟩
      exact clean_not_bad h3 _ hm (by simp [Bad])
    · simp at h1
  have hwarn : ∀ pre post, update_log ops bus c = pre ++ Event.status_set_warning :: post →
      post = [] ∧ ∃ pre1 reg, pre = pre1 ++ [Event.read_byte_16 reg none] := by
    intro pre post h
    rcases shape_split hshape (by simp [Bad]) h with ⟨⟨reg, h1⟩, -⟩ | ⟨-, h2, p, reg, h3, -⟩
    · simp at h1
    · exact ⟨h2, p, reg, h3⟩
  refine ⟨⟨fun h => ?_, fun h => ?_⟩, hread, hwarn⟩
  · obtain ⟨pre, post, h⟩ := List.append_of_mem h
    obtain ⟨-, p, reg, h3⟩ := hwarn pre post h
    exact ⟨reg, by rw [h, h3]; simp⟩
  · obtain ⟨reg, h⟩ := h
    obtain ⟨pre, post, h⟩ := List.append_of_mem h
    rw [h, (hread pre reg post h).1]
    simp

/-- C9: in one call of `update`, a value pushed to the power sensor of channel `i` is the
product of the bus voltage and the current computed from two words that were read
successfully, earlier in the same call, from the bus-voltage and the shunt-voltage register
of channel `i`.  A shunt voltage or a current is pushed only after a successful read of the
shunt-voltage register of the channel, a bus voltage only after a successful read of its
bus-voltage register, and each pushed value is computed from the word read. -/
theorem update_push_after_read (ops : FloatOps F) (bus : I2CBus) (c : INA3221Component F) :
    (∀ i v pre post,
      update_log ops bus c = pre ++ Event.push_new_value i SensorKind.power v :: post →
      ∃ rb rs, Event.read_byte_16 (ina3221_bus_voltage_register i) (some rb) ∈ pre ∧
        Event.read_byte_16 (ina3221_shunt_voltage_register i) (some rs) ∈ pre ∧
        v = ops.mul (ops.div (ops.ofInt (int16_t rb)) (ops.ofInt 1000))
              (ops.div (ops.div (ops.mul (ops.ofInt (int16_t rs)) (ops.ofInt 40))
                (ops.ofInt 1000000)) (c.channels i).shunt_resistance_)) ∧
    (∀ i v pre post,
      update_log ops bus c = pre ++ Event.push_new_value i SensorKind.shunt_voltage v :: post →
      ∃ rs, Event.read_byte_16 (ina3221_shunt_voltage_register i) (some rs) ∈ pre ∧
        v = ops.div (ops.mul (ops.ofInt (int16_t rs)) (ops.ofInt 40)) (ops.ofInt 1000000)) ∧
    (∀ i v pre post,
      update_log ops bus c = pre ++ Event.push_new_value i SensorKind.current v :: post →
      ∃ rs, Event.read_byte_16 (ina3221_shunt_voltage_register i) (some rs) ∈ pre ∧
        v = ops.div (ops.div (ops.mul (ops.ofInt (int16_t rs)) (ops.ofInt 40))
              (ops.ofInt 1000000)) (c.channels i).shunt_resistance_) ∧
    (∀ i v pre post,
      update_log ops bus c = pre ++ Event.push_new_value i SensorKind.bus_voltage v :: post →
      ∃ rb, Event.read_byte_16 (ina3221_bus_voltage_register i) (some rb) ∈ pre ∧
        v = ops.div (ops.ofInt (int16_t rb)) (ops.ofInt 1000)) := by
  have hj := (update_log_spec ops bus c).2.2.2.2.1
  refine ⟨?_, ?_, ?_, ?_⟩ <;> intro i v pre post h <;>
    simpa [Justified, bus_voltage_v, shunt_voltage_v] using justifiedFrom_split ops c.channels hj h

theorem testBit_setup_config (c : INA3221Component F) (i : Fin 3) :
    (setup_config c).testBit (14 - i) = (c.channels i).exists := by
  have h : (setup_config c).testBit 14 = (c.channels 0).exists ∧
      (setup_config c).testBit 13 = (c.channels 1).exists ∧
      (setup_config c).testBit 12 = (c.channels 2).exists := by
    rw [setup_config_eq]
    cases (c.channels 0).exists <;> cases (c.channels 1).exists <;>
      cases (c.channels 2).exists <;> decide
  fin_cases i
  · exact h.1
  · exact h.2.1
  · exact h.2.2

theorem reads_channel_iff (i : Fin 3) (l : List (Event F)) :
    (∃ e ∈ l, ReadsChannel i e) ↔
      ∃ r, Event.read_byte_16 (ina3221_bus_voltage_register i) r ∈ l ∨
        Event.read_byte_16 (ina3221_shunt_voltage_register i) r ∈ l := by
  constructor
  · rintro ⟨e, he, hr⟩
    cases e with
    | read_byte_16 reg result =>
      rcases hr with rfl | rfl
      · exact ⟨result, Or.inl he⟩
      · exact ⟨result, Or.inr he⟩
    | _ => exact absurd hr (by simp [ReadsChannel])
  · rintro ⟨r, h | h⟩
    · exact ⟨_, h, Or.inl rfl⟩
    · exact ⟨_, h, Or.inr rfl⟩

/-- C8: for every channel `exists()` equals `should_measure_bus_voltage() ||
should_measure_shunt_voltage()`.  When all register reads succeed, the enable bit of
channel `i` (bit `14 - i`) is set in the configuration word of `setup` if and only if
`update` reads the bus-voltage or the shunt-voltage register of channel `i`.  For a channel
without sensors the enable bit is clear and, whatever the reads return, `update` reads
neither of its registers and pushes no value to it. -/
theorem exists_iff_measured :
    (∀ ch : INA3221Channel F,
      ch.exists = (ch.should_measure_bus_voltage || ch.should_measure_shunt_voltage)) ∧
    (∀ (ops : FloatOps F) (bus : I2CBus) (c : INA3221Component F) (i : Fin 3),
      (∀ n reg, (bus.read_byte_16 n reg).isSome = true) →
      ((setup_config c).testBit (14 - i) = true ↔
        ∃ r, Event.read_byte_16 (ina3221_bus_voltage_register i) r ∈ update_log ops bus c ∨
          Event.read_byte_16 (ina3221_shunt_voltage_register i) r ∈ update_log ops bus c)) ∧
    (∀ (ops : FloatOps F) (bus : I2CBus) (c : INA3221Component F) (i : Fin 3),
      (c.channels i).exists = false →
      (setup_config c).testBit (14 - i) = false ∧
      (∀ r, Event.read_byte_16 (ina3221_bus_voltage_register i) r ∉ update_log ops bus c ∧
        Event.read_byte_16 (ina3221_shunt_voltage_register i) r ∉ update_log ops bus c) ∧
      ∀ s v, Event.push_new_value i s v ∉ update_log ops bus c) := by
  refine ⟨?_, ?_, ?_⟩
  · rintro ⟨b, s, cu, p, r⟩
    cases b <;> cases s <;> cases cu <;> cases p <;> rfl
  · intro ops bus c i hall
    rw [testBit_setup_config, ← reads_channel_iff]
    exact ((update_log_spec ops bus c).2.2.2.2.2.2 hall i).symm
  · intro ops bus c i hex
    have hown := (update_log_spec ops bus c).2.2.2.2.2.1
    have key : ∀ e ∈ update_log ops bus c, ¬ ReadsChannel i e ∧ ¬ PushesChannel i e := by
      intro e he
      obtain ⟨j, hj, hjex⟩ := hown e he
      constructor
      · intro hr
        rw [own_reads hj hr, hjex] at hex
        exact absurd hex (by simp)
      · intro hp
        rw [own_pushes hj hp, hjex] at hex
        exact absurd hex (by simp)
    refine ⟨by rw [testBit_setup_config, hex], fun r => ⟨fun h => ?_, fun h => ?_⟩,
      fun s v h => ?_⟩
    · exact (key _ h).1 (Or.inl rfl)
    · exact (key _ h).1 (Or.inr rfl)
    · exact (key _ h).2 rfl

/-! ## Theorems: INA3221, repeated updates -/

theorem updates_spec (ops : FloatOps F) (bus : I2CBus) (n : Nat) (c : INA3221Component F) :
    (updates ops bus n c).failed = c.failed ∧
    (updates ops bus n c).channels = c.channels ∧
    ∃ calls, (updates ops bus n c).log = c.log ++ calls ∧ Event.mark_failed ∉ calls := by
  induction n generalizing c with
  | zero => exact ⟨rfl, rfl, [], by simp [updates], by simp⟩
  | succ n ih =>
    obtain ⟨h1, h2, h3, -, -, h4, -⟩ := update_log_spec ops bus c
    obtain ⟨i1, i2, calls, i3, i4⟩ := ih (update ops bus c)
    refine ⟨by rw [updates, i1, h3], by rw [updates, i2, h2],
      update_log ops bus c ++ calls, by rw [updates, i3, h1, List.append_assoc], ?_⟩
    intro hm
    rcases List.mem_append.1 hm with hm | hm
    · obtain ⟨j, hj, -⟩ := h4 _ hm
      exact own_not_mark_failed hj rfl
    · exact i4 hm

theorem update_log_bus_read_fails (ops : FloatOps F) (bus : I2CBus) (c : INA3221Component F)
    (hbus : ∀ n reg, bus.read_byte_16 n reg = none)
    (hsensor : (c.channels 0).bus_voltage_sensor_ = true) :
    update_log ops bus c =
      [Event.read_byte_16 (ina3221_bus_voltage_register 0) none, Event.status_set_warning] := by
  obtain ⟨-, -, hlog, hcont⟩ := update_channel_eq ops bus 0 c
  have hcalls : ∀ rs, channel_calls ops (c.channels 0) 0 none rs =
      ([Event.read_byte_16 (ina3221_bus_voltage_register (0 : Fin 3)) none,
        Event.status_set_warning], false) := by
    intro rs
    simp [channel_calls, INA3221Channel.should_measure_bus_voltage, hsensor]
  rw [hbus, hbus] at hlog hcont
  simp only [Option.map_none', hcalls] at hlog hcont
  unfold update_log new_events update
  rw [update_channels]
  rcases hu : update_channel ops bus 0 c with ⟨c1, b⟩
  rw [hu] at hlog hcont
  simp only at hlog hcont
  subst hcont
  simp [hlog]

theorem update_log_warning_of_failed_read (ops : FloatOps F) (bus : I2CBus)
    (c : INA3221Component F) (reg : Nat)
    (h : Event.read_byte_16 reg none ∈ update_log ops bus c) :
    Event.status_set_warning ∈ update_log ops bus c := by
  obtain ⟨pre, post, hsplit⟩ := List.append_of_mem h
  rcases shape_split (update_log_spec ops bus c).2.2.2.1 (by simp [Bad]) hsplit with
    ⟨-, h2, -⟩ | ⟨h1, -⟩
  · rw [hsplit, h2]
    simp
  · simp at h1

/-- C6, as the code has it: `update` never calls `mark_failed`.  After any number `n` of
consecutive calls of `update`, whatever the register reads return, the `failed` flag is
what it was before and no call of `mark_failed` was made; a call of `update` in which a
register read fails calls `status_set_warning`. -/
theorem updates_never_mark_failed (ops : FloatOps F) (bus : I2CBus) (n : Nat)
    (c : INA3221Component F) :
    (updates ops bus n c).failed = c.failed ∧
    Event.mark_failed ∉ new_events c (updates ops bus n c) ∧
    ∀ k reg, Event.read_byte_16 reg none ∈ update_log ops bus (updates ops bus k c) →
      Event.status_set_warning ∈ update_log ops bus (updates ops bus k c) ∧
      Event.mark_failed ∉ update_log ops bus (updates ops bus k c) := by
  obtain ⟨h1, -, calls, h2, h3⟩ := updates_spec ops bus n c
  refine ⟨h1, ?_, fun k reg h => ⟨update_log_warning_of_failed_read ops bus _ reg h, ?_⟩⟩
  · unfold new_events
    rw [h2]
    simpa using h3
  · intro hm
    obtain ⟨j, hj, -⟩ := (update_log_spec ops bus (updates ops bus k c)).2.2.2.2.2.1 _ hm
    exact own_not_mark_failed hj rfl

/-- C6 as stated fails: there is no number `n` of consecutive calls of `update`, each with a
failed register read, after which the component is marked failed.  On the bus where every
read fails, the component whose channel 0 has a bus voltage sensor stays not failed. -/
theorem no_mark_failed_after_repeated_read_failures :
    ¬ ∃ n : Nat, ∀ (bus : I2CBus) (c : INA3221Component FloatExpr), c.failed = false →
      (∀ k, k < n → ∃ reg, Event.read_byte_16 reg none ∈
        update_log FloatExpr.ops bus (updates FloatExpr.ops bus k c)) →
      (updates FloatExpr.ops bus n c).failed = true := by
  rintro ⟨n, h⟩
  have hf := h dead_bus sample_component rfl (fun k _ => by
    refine ⟨ina3221_bus_voltage_register 0, ?_⟩
    rw [update_log_bus_read_fails FloatExpr.ops dead_bus _ (fun _ _ => rfl)
      (by rw [(updates_spec FloatExpr.ops dead_bus k sample_component).2.1]; rfl)]
    simp)
  rw [(updates_spec FloatExpr.ops dead_bus n sample_component).1] at hf
  exact absurd hf (by decide)

/-- C7 at a concrete input: on the bus where every write succeeds, the sample component
(channels 0 and 2 have a sensor) writes the configuration word `0x5FFF`. -/
theorem setup_config_word_witness :
    good_bus.write_byte_16 sample_component.transactions 0x00 0x8000 = true ∧
    setup_config sample_component = 0x5FFF ∧
    (setup_config sample_component).testBit 15 = false ∧
    0x0FFF ≤ setup_config sample_component ∧ setup_config sample_component ≤ 0x7FFF :=
  have h := setup_config_word good_bus sample_component rfl
  ⟨rfl, by decide, h.2.2.1, h.2.2.2.2.2.2.2.2.2.2.1, h.2.2.2.2.2.2.2.2.2.2.2⟩

end INA3221Component

/-! ## Theorems: CronTrigger -/

namespace Bitset

theorem none_iff {size : Nat} (b : Bitset size) :
    b.none = true ↔ ∀ i, i < size → b.test i = some false := by
  simp only [Bitset.none, Bitset.test, List.all_eq_true, List.mem_range]
  constructor
  · intro h i hi
    simpa [hi] using h i hi
  · intro h i hi
    simpa [hi] using h i hi

theorem test_isSome_iff {size : Nat} (b : Bitset size) (i : Nat) :
    (b.test i).isSome = true ↔ i < size := by
  unfold Bitset.test
  split <;> simp [*]

end Bitset

namespace CronTrigger

theorem field_matches_iff {size : Nat} (mask : Bitset size) (value : Nat) :
    field_matches mask value = true ↔
      ((∀ i, i < size → mask.test i = some false) ∨ mask.test value = some true) := by
  unfold field_matches
  rw [Bool.or_eq_true, Bitset.none_iff]
  simp

theorem same_minute_trans {a b d : EsphomelibTime} (h1 : a.same_minute b = true)
    (h2 : b.same_minute d = true) : a.same_minute d = true := by
  simp only [EsphomelibTime.same_minute, decide_eq_true_eq] at *
  omega

theorem loop_same_minute (zone : Int → EsphomelibTime) (c : CronTrigger)
    {last t : EsphomelibTime} (hc : c.last_check_ = some last) (hv : t.is_valid = true)
    (hs : t.same_minute last = true) : loop zone c t = (c, []) := by
  simp [loop, hc, hv, hs]

theorem run_same_minute (zone : Int → EsphomelibTime) (c : CronTrigger)
    {last : EsphomelibTime} (hc : c.last_check_ = some last) (ts : List EsphomelibTime)
    (h : ∀ t ∈ ts, t.is_valid = true ∧ t.same_minute last = true) :
    run zone c ts = (c, []) := by
  induction ts with
  | nil => rfl
  | cons t ts ih =>
    have ht := h t (List.mem_cons_self _ _)
    rw [run, loop_same_minute zone c hc ht.1 ht.2]
    simp only [List.nil_append]
    rw [ih fun x hx => h x (List.mem_cons_of_mem _ hx)]

theorem mem_minute_boundaries (last t : EsphomelibTime) (e : Int) :
    e ∈ minute_boundaries last t ↔ (e % 60 = 0 ∧ last.time < e ∧ e ≤ t.time) := by
  simp only [minute_boundaries, List.mem_map, List.mem_range]
  constructor
  · rintro ⟨j, hj, rfl⟩
    rw [Int.lt_toNat] at hj
    omega
  · rintro ⟨h1, h2, h3⟩
    have hnn : 0 ≤ e / 60 - (last.time / 60 + 1) := by omega
    refine ⟨(e / 60 - (last.time / 60 + 1)).toNat, ?_, ?_⟩
    · rw [Int.lt_toNat, Int.toNat_of_nonneg hnn]
      omega
    · rw [Int.toNat_of_nonneg hnn]
      omega

theorem minute_boundaries_sorted (last t : EsphomelibTime) :
    (minute_boundaries last t).Pairwise (· < ·) := by
  unfold minute_boundaries
  rw [List.pairwise_map]
  refine (List.pairwise_lt_range _).imp ?_
  intro a b hab
  omega

theorem loop_fired_sorted (zone : Int → EsphomelibTime) (c : CronTrigger)
    (t : EsphomelibTime) : (loop zone c t).2.Pairwise (· < ·) := by
  unfold loop
  split
  · exact List.Pairwise.nil
  · split
    · exact List.Pairwise.nil
    · split
      · exact List.Pairwise.nil
      · exact (minute_boundaries_sorted _ t).sublist (List.filter_sublist _)

theorem loop_last_check (zone : Int → EsphomelibTime) (c : CronTrigger)
    {t : EsphomelibTime} (hv : t.is_valid = true) :
    ∃ last, (loop zone c t).1.last_check_ = some last ∧ t.same_minute last = true := by
  have hrefl : t.same_minute t = true := by simp [EsphomelibTime.same_minute]
  unfold loop
  rw [hv]
  simp only [Bool.not_true, Bool.false_eq_true, if_false]
  cases hc : c.last_check_ with
  | none => exact ⟨t, rfl, hrefl⟩
  | some last =>
    simp only
    split
    · exact ⟨last, hc, by assumption⟩
    · exact ⟨t, rfl, hrefl⟩

theorem loop_empty_masks (zone : Int → EsphomelibTime) (c : CronTrigger)
    (h1 : c.seconds_.none = true) (h2 : c.minutes_.none = true) (h3 : c.hours_.none = true)
    (h4 : c.days_of_month_.none = true) (h5 : c.months_.none = true)
    (h6 : c.days_of_week_.none = true) {last t : EsphomelibTime}
    (hc : c.last_check_ = some last) (hv : t.is_valid = true)
    (hs : t.same_minute last = false) :
    (loop zone c t).2 = minute_boundaries last t ∧ (loop zone c t).1.last_check_ = some t := by
  have hm : ∀ x, c.matches x = true := by
    intro x
    simp [CronTrigger.matches, field_matches, h1, h2, h3, h4, h5, h6]
  simp [loop, hc, hv, hs, hm]

/-- C3: the double-fire guard of `loop`.  Any number of ticks (1000, say) at valid times
in the minute of `last_check` fire nothing and leave the state as it is.  Hence when a
tick at a valid time `t0` is followed by any ticks at valid times in the minute of `t0`,
only the first tick can fire, its firings are for strictly increasing minute boundaries,
and no minute is fired for twice.  With all six masks empty, a tick at a valid time in
another minute than `last_check` fires exactly the minute boundaries `e` (multiples of 60)
with `last_check.time < e ≤ t.time`, once each in increasing order, and arms `last_check`
to `t`. -/
theorem loop_double_fire_guard (zone : Int → EsphomelibTime) (c : CronTrigger) :
    (∀ last ts, c.last_check_ = some last →
      (∀ t ∈ ts, t.is_valid = true ∧ t.same_minute last = true) →
      run zone c ts = (c, [])) ∧
    (∀ last t, c.last_check_ = some last → t.is_valid = true → t.same_minute last = true →
      run zone c (List.replicate 1000 t) = (c, [])) ∧
    (∀ t0 ts, t0.is_valid = true →
      (∀ t ∈ ts, t.is_valid = true ∧ t.same_minute t0 = true) →
      (run zone c (t0 :: ts)).2 = (loop zone c t0).2 ∧
      (run zone c (t0 :: ts)).2.Pairwise (· < ·) ∧
      ∀ e, (run zone c (t0 :: ts)).2.count e ≤ 1) ∧
    (c.seconds_.none = true → c.minutes_.none = true → c.hours_.none = true →
      c.days_of_month_.none = true → c.months_.none = true → c.days_of_week_.none = true →
      ∀ last t, c.last_check_ = some last → t.is_valid = true →
        t.same_minute last = false →
        (loop zone c t).2 = minute_boundaries last t ∧
        (loop zone c t).1.last_check_ = some t ∧
        (∀ e, e ∈ (loop zone c t).2 ↔ (e % 60 = 0 ∧ last.time < e ∧ e ≤ t.time)) ∧
        (loop zone c t).2.Pairwise (· < ·)) := by
  refine ⟨fun last ts hc h => run_same_minute zone c hc ts h, ?_, ?_, ?_⟩
  · intro last t hc hv hs
    exact run_same_minute zone c hc _ fun x hx => by
      rw [List.eq_of_mem_replicate hx]
      exact ⟨hv, hs⟩
  · intro t0 ts hv h
    obtain ⟨last, hl, hsame⟩ := loop_last_check zone c hv
    have hrun : (run zone c (t0 :: ts)).2 = (loop zone c t0).2 := by
      rw [run]
      simp only
      rw [run_same_minute zone _ hl ts fun x hx =>
        ⟨(h x hx).1, same_minute_trans (h x hx).2 hsame⟩]
      simp
    rw [hrun]
    refine ⟨rfl, loop_fired_sorted zone c t0, fun e => ?_⟩
    exact List.nodup_iff_count_le_one.1
      ((loop_fired_sorted zone c t0).imp fun hab => ne_of_lt hab) e
  · intro h1 h2 h3 h4 h5 h6 last t hc hv hs
    obtain ⟨hfired, hlast⟩ := loop_empty_masks zone c h1 h2 h3 h4 h5 h6 hc hv hs
    refine ⟨hfired, hlast, fun e => ?_, ?_⟩
    · rw [hfired]
      exact mem_minute_boundaries last t e
    · rw [hfired]
      exact minute_boundaries_sorted last t

/-- C5: each mask of a `CronTrigger` holds exactly the positions from 0 to the largest
documented value of its field (60, 59, 23, 31, 12, 7), which is its last position; so for
a time whose fields lie in their documented ranges, the checked access of each mask at the
value of its field is in range. -/
theorem mask_index_in_bounds (c : CronTrigger) (t : EsphomelibTime)
    (h : t.fields_in_range) :
    ((c.seconds_.test t.second).isSome = true ∧ (c.minutes_.test t.minute).isSome = true ∧
      (c.hours_.test t.hour).isSome = true ∧
      (c.days_of_month_.test t.day_of_month).isSome = true ∧
      (c.months_.test t.month).isSome = true ∧
      (c.days_of_week_.test t.day_of_week).isSome = true) ∧
    ((∀ i, (c.seconds_.test i).isSome = true ↔ i ≤ 60) ∧
      (∀ i, (c.minutes_.test i).isSome = true ↔ i ≤ 59) ∧
      (∀ i, (c.hours_.test i).isSome = true ↔ i ≤ 23) ∧
      (∀ i, (c.days_of_month_.test i).isSome = true ↔ i ≤ 31) ∧
      (∀ i, (c.months_.test i).isSome = true ↔ i ≤ 12) ∧
      (∀ i, (c.days_of_week_.test i).isSome = true ↔ i ≤ 7)) ∧
    (c.seconds_.length - 1 = 60 ∧ c.minutes_.length - 1 = 59 ∧ c.hours_.length - 1 = 23 ∧
      c.days_of_month_.length - 1 = 31 ∧ c.months_.length - 1 = 12 ∧
      c.days_of_week_.length - 1 = 7) := by
  obtain ⟨h1, h2, h3, ⟨-, h4⟩, ⟨-, h5⟩, ⟨-, h6⟩⟩ := h
  simp only [Bitset.test_isSome_iff, Bitset.length]
  refine ⟨⟨?_, ?_, ?_, ?_, ?_, ?_⟩, ⟨?_, ?_, ?_, ?_, ?_, ?_⟩, by decide⟩ <;>
    omega

/-- C4: `matches(t)` is true if and only if each of the six masks has no bit set or has
the bit at the value of its field of `t` set.  A trigger whose six masks are empty matches
every time; when the day-of-month and the day-of-week mask both have a bit set, a match
needs the bit of `t.day_of_month` and the bit of `t.day_of_week` both set. -/
theorem matches_iff (c : CronTrigger) (t : EsphomelibTime) :
    (c.matches t = true ↔
      ((∀ i, i < 61 → c.seconds_.test i = some false) ∨
          c.seconds_.test t.second = some true) ∧
      ((∀ i, i < 60 → c.minutes_.test i = some false) ∨
          c.minutes_.test t.minute = some true) ∧
      ((∀ i, i < 24 → c.hours_.test i = some false) ∨ c.hours_.test t.hour = some true) ∧
      ((∀ i, i < 32 → c.days_of_month_.test i = some false) ∨
          c.days_of_month_.test t.day_of_month = some true) ∧
      ((∀ i, i < 13 → c.months_.test i = some false) ∨
          c.months_.test t.month = some true) ∧
      ((∀ i, i < 8 → c.days_of_week_.test i = some false) ∨
          c.days_of_week_.test t.day_of_week = some true)) ∧
    (c.seconds_.none = true → c.minutes_.none = true → c.hours_.none = true →
      c.days_of_month_.none = true → c.months_.none = true → c.days_of_week_.none = true →
      c.matches t = true) ∧
    (c.days_of_month_.none = false → c.days_of_week_.none = false → c.matches t = true →
      c.days_of_month_.test t.day_of_month = some true ∧
      c.days_of_week_.test t.day_of_week = some true) := by
  refine ⟨?_, ?_, ?_⟩
  · unfold CronTrigger.matches
    simp only [Bool.and_eq_true, field_matches_iff, and_assoc]
  · intro h1 h2 h3 h4 h5 h6
    simp [CronTrigger.matches, field_matches, h1, h2, h3, h4, h5, h6]
  · intro h1 h2 h
    simp only [CronTrigger.matches, field_matches, Bool.and_eq_true, h1, h2,
      Bool.false_or, beq_iff_eq] at h
    exact ⟨h.1.1.2, h.2⟩

end CronTrigger

/-! ## The claims at concrete inputs -/

namespace INA3221Component

/-- C1 at a concrete input: on the bus where every transaction fails, `setup` of the sample
component makes the reset write and `mark_failed` only and leaves the component failed. -/
theorem setup_mark_failed_witness :
    setup_log dead_bus sample_component =
        [Event.write_byte_16 0x00 0x8000 false, Event.mark_failed] ∧
      (setup dead_bus sample_component).failed = true :=
  have h := setup_mark_failed_iff dead_bus sample_component
  ⟨h.2.2.1 rfl, h.2.1.2 (Or.inr (Or.inl rfl))⟩

/-- C2 at a concrete input: on the bus whose second transaction fails, `update` of the
sample component reads register 2, pushes the bus voltage of channel 0, fails to read
register 6 and calls `status_set_warning` last. -/
theorem update_warning_witness :
    update_log FloatExpr.ops flaky_bus sample_component =
        [Event.read_byte_16 2 (some 1234),
          Event.push_new_value 0 SensorKind.bus_voltage
            (FloatExpr.div (FloatExpr.ofInt 1234) (FloatExpr.ofInt 1000)),
          Event.read_byte_16 6 none, Event.status_set_warning] ∧
      Event.status_set_warning ∈ update_log FloatExpr.ops flaky_bus sample_component :=
  ⟨by decide,
    (update_warning_iff_read_fails FloatExpr.ops flaky_bus sample_component).1.2
      ⟨6, by decide⟩⟩

/-- C8 at a concrete input: channel 2 of the sample component has a sensor, so on the bus
where every read succeeds `update` reads a register of channel 2; channel 1 has no sensor
and nothing is pushed to it. -/
theorem exists_iff_measured_witness :
    (∃ r, Event.read_byte_16 (ina3221_bus_voltage_register (2 : Fin 3)) r ∈
          update_log FloatExpr.ops good_bus sample_component ∨
        Event.read_byte_16 (ina3221_shunt_voltage_register (2 : Fin 3)) r ∈
          update_log FloatExpr.ops good_bus sample_component) ∧
      ∀ s v, Event.push_new_value 1 s v ∉
        update_log FloatExpr.ops good_bus sample_component :=
  ⟨(exists_iff_measured.2.1 FloatExpr.ops good_bus sample_component 2 (fun _ _ => rfl)).1
      (by decide),
    (exists_iff_measured.2.2 FloatExpr.ops good_bus sample_component 1 (by decide)).2.2⟩

/-- C9 at a concrete input: on the bus where every read returns 1234, the power pushed for
channel 2 of the sample component comes after the reads of the registers 6 and 5 and is
the product computed from the two words read. -/
theorem update_push_after_read_witness :
    ∃ rb rs,
      Event.read_byte_16 6 (some rb) ∈
        [Event.read_byte_16 2 (some 1234),
          Event.push_new_value 0 SensorKind.bus_voltage
            (FloatExpr.div (FloatExpr.ofInt 1234) (FloatExpr.ofInt 1000)),
          Event.read_byte_16 6 (some 1234), Event.read_byte_16 5 (some 1234)] ∧
      Event.read_byte_16 5 (some rs) ∈
        [Event.read_byte_16 2 (some 1234),
          Event.push_new_value 0 SensorKind.bus_voltage
            (FloatExpr.div (FloatExpr.ofInt 1234) (FloatExpr.ofInt 1000)),
          Event.read_byte_16 6 (some 1234), Event.read_byte_16 5 (some 1234)] ∧
      FloatExpr.mul (FloatExpr.div (FloatExpr.ofInt 1234) (FloatExpr.ofInt 1000))
          (FloatExpr.div
            (FloatExpr.div (FloatExpr.mul (FloatExpr.ofInt 1234) (FloatExpr.ofInt 40))
              (FloatExpr.ofInt 1000000))
            (FloatExpr.div (FloatExpr.ofInt 1) (FloatExpr.ofInt 10))) =
        FloatExpr.mul (FloatExpr.div (FloatExpr.ofInt (int16_t rb)) (FloatExpr.ofInt 1000))
          (FloatExpr.div
            (FloatExpr.div (FloatExpr.mul (FloatExpr.ofInt (int16_t rs)) (FloatExpr.ofInt 40))
              (FloatExpr.ofInt 1000000))
            (FloatExpr.div (FloatExpr.ofInt 1) (FloatExpr.ofInt 10))) :=
  (update_push_after_read FloatExpr.ops good_bus sample_component).1 2 _ _ [] (by decide)

end INA3221Component

namespace CronTrigger

/-- C3 at a concrete input: a trigger with empty masks last checked at 00:29:59 fires once,
for the boundary 00:30:00, when ticked at 00:30:00 and then 1000 times at 00:30:15. -/
theorem loop_double_fire_guard_witness :
    (run utc armed_trigger (t_003000 :: List.replicate 1000 t_003015)).2 = [1546302600] :=
  ((loop_double_fire_guard utc armed_trigger).2.2.1 t_003000 (List.replicate 1000 t_003015)
      (by decide) (fun t ht => by rw [List.eq_of_mem_replicate ht]; decide)).1.trans
    (by decide)

/-- C4 at a concrete input: the trigger for the first of the month and Monday does not
match Tuesday 2019-01-01, although the day of the month matches. -/
theorem matches_iff_witness :
    first_and_monday.days_of_month_.test t_003000.day_of_month = some true ∧
      ¬ first_and_monday.matches t_003000 = true :=
  ⟨by decide, fun h =>
    absurd ((matches_iff first_and_monday t_003000).2.2 (by decide) (by decide) h).2
      (by decide)⟩

/-- C5 at a concrete input: the fields of 2019-01-01 00:30:00 are in range and index every
mask in bounds. -/
theorem mask_index_in_bounds_witness :
    t_003000.fields_in_range ∧
      (armed_trigger.seconds_.test t_003000.second).isSome = true ∧
      (armed_trigger.days_of_week_.test t_003000.day_of_week).isSome = true :=
  have h := mask_index_in_bounds armed_trigger t_003000 (by decide)
  ⟨by decide, h.1.1, h.1.2.2.2.2.2⟩

end CronTrigger

end Esphomelib
